import Mathlib

/-!
# Hot-reload orchestrator (`src/hotreload/hotreload.cpp`)

A shallow embedding of `handle_signal`, the `load_library` lambda and
`watch_and_reload`.  The operating system and the loaded module are the
environment: their answers (file timestamps, `dlopen`/`dlsym` results, the
return values of `init` and `update`) are inputs of the model, and every call
the program makes into them is recorded in a trace.
-/

namespace HotReload

/-- A module handle: the non-null `void*` returned by one successful `dlopen`.
Handles are numbered in the order in which `dlopen` hands them out, so that two
acquisitions are never confused even if the addresses coincide. -/
abbrev Handle := Nat

/-- The calls that `watch_and_reload` makes to the file system, the dynamic
loader and the loaded module, in program order. -/
inductive Event where
  /-- `fs::last_write_time(dll_path)` is evaluated (lines 31 and 84). -/
  | stat
  /-- `load_library()` is invoked (lines 63 and 94). -/
  | load
  /-- `dlopen` returned the non-null handle `h` (line 42). -/
  | opened (h : Handle)
  /-- `dlclose(h)` (lines 55, 69, 90 and 112). -/
  | dlclose (h : Handle)
  /-- A call through the `init` pointer resolved from `h`, returning `r`. -/
  | init (h : Handle) (r : Int)
  /-- A call through the `update` pointer resolved from `h`, returning `r`. -/
  | update (h : Handle) (r : Int)
  /-- A call through the `shutdown` pointer resolved from `h`. -/
  | shutdown (h : Handle)
  deriving DecidableEq, Repr

/-- What one execution of `load_library` meets in its environment. -/
inductive LoadOutcome where
  /-- `fs::copy` throws `filesystem_error` (line 39). -/
  | copyThrows
  /-- `dlopen` returns `nullptr` (line 42). -/
  | openFails
  /-- `dlopen` returns a handle; the flags say whether `dlsym` finds
  `"init"`, `"update"` and `"server_shutdown"` (lines 49-51). -/
  | opened (hasInit hasUpdate hasShutdown : Bool)
  deriving DecidableEq, Repr

/-- The environment of the start-up part of `watch_and_reload`. -/
structure Env where
  /-- The value of the constant `SIGUSR1` of `<signal.h>`. -/
  SIGUSR1 : Int
  /-- Result of `fs::last_write_time` at line 31 (`none`: it throws). -/
  time : Option Int
  /-- Outcome of the initial `load_library()`. -/
  load : LoadOutcome
  /-- Return value of `init(allocator, state)`. -/
  initRet : Int
  deriving DecidableEq, Repr

/-- The environment of one pass through the body of the `while (true)` loop. -/
structure Wake where
  /-- Result of `fs::last_write_time` at line 84 (`none`: it throws). -/
  time : Option Int
  /-- Outcome of `load_library()` at line 94, consulted if the file changed. -/
  load : LoadOutcome
  /-- Return value of `update(allocator, state)` at line 100, if it is called. -/
  upd : Int
  deriving DecidableEq, Repr

/-- Where the process is. -/
inductive Status where
  /-- Inside the `while (true)` loop of `watch_and_reload`. -/
  | running
  /-- `watch_and_reload` has returned. -/
  | returned
  /-- The process was killed: an uncaught `filesystem_error`, a call through
  a null function pointer, or a call through a pointer into a module that has
  been released. -/
  | aborted
  /-- The handler is blocked for ever at line 24, on the mutex `cv_m` that the
  thread it interrupted holds. -/
  | hung
  deriving DecidableEq, Repr

/-- The variables of `watch_and_reload` and the global `reload_signal`.  A
function pointer is represented by the handle it was resolved from; `none` is
`nullptr`. -/
structure State where
  engineLibrary : Option Handle
  init : Option Handle
  update : Option Handle
  shutdown : Option Handle
  last_write_time : Int
  reload_signal : Bool
  /-- The handle the next successful `dlopen` returns. -/
  nextHandle : Handle
  trace : List Event
  status : Status
  deriving DecidableEq, Repr

/-- How a pass through the loop body ends. -/
inductive Ctl where
  /-- The end of the body is reached; the loop goes round. -/
  | continue
  /-- A `break` statement (lines 95 and 102). -/
  | break
  /-- An exception leaves the function. -/
  | throw
  deriving DecidableEq, Repr

/-- Append one call to the trace. -/
def State.emit (s : State) (e : Event) : State :=
  { s with trace := s.trace ++ [e] }

/-- The body of `handle_signal` (lines 22-28).  `main` installs it with
`signal()` (line 140) and starts no other thread, so the handler runs on the
thread of `watch_and_reload`; `held` says whether that thread holds `cv_m` at
the delivery.  If it does, the `unique_lock` of line 24 never returns;
otherwise the flag is set (`notify_all` changes no variable) and the handler
returns. -/
def handle_signal (SIGUSR1 sig : Int) (held : Bool) (s : State) : State :=
  if sig = SIGUSR1 then
    if held then { s with status := .hung }
    else { s with reload_signal := true }
  else s

/-- The effect of one event on the list of handles that are open. -/
def liveStep (l : List Handle) : Event → List Handle
  | .opened h => l ++ [h]
  | .dlclose h => l.filter (fun x => x ≠ h)
  | _ => l

/-- The handles that have been opened and not yet released after `tr`. -/
def liveHandles (tr : List Event) : List Handle :=
  tr.foldl liveStep []

/-- The lambda `load_library` (lines 37-60).  The result is `none` when
`fs::copy` throws, and otherwise the returned `bool`. -/
def load_library (o : LoadOutcome) (s : State) : Option Bool × State :=
  let s := s.emit .load
  match o with
  | .copyThrows => (none, s)
  | .openFails => (some false, { s with engineLibrary := none })
  | .opened i u d =>
    let h := s.nextHandle
    let s := { s with engineLibrary := some h, nextHandle := h + 1,
                      trace := s.trace ++ [Event.opened h] }
    let s := { s with init := if i then some h else none,
                      update := if u then some h else none,
                      shutdown := if d then some h else none }
    if s.init.isNone || s.update.isNone || s.shutdown.isNone then
      (some false, s.emit (.dlclose h))
    else
      (some true, s)

/-- The statement `if (engineLibrary) dlclose(engineLibrary);` (lines 89-91 and
111-113).  The variable keeps its value.  It also stands for the unguarded
`dlclose(engineLibrary)` of line 69, which is reached only after a load that
returned `true`, that is with a non-null handle. -/
def closeLibrary (s : State) : State :=
  match s.engineLibrary with
  | some h => s.emit (.dlclose h)
  | none => s

/-- The clean-up after the loop (lines 107-113), followed by the return.  When
the `shutdown` pointer leads into a module that is no longer open, the call of
line 109 is made and the process is killed there: lines 111-113 are not
reached. -/
def cleanup (s : State) : State :=
  match s.shutdown with
  | some p =>
    if p ∈ liveHandles s.trace then
      { closeLibrary (s.emit (.shutdown p)) with status := .returned }
    else
      { s.emit (.shutdown p) with status := .aborted }
  | none => { closeLibrary s with status := .returned }

/-- The start of `watch_and_reload` up to the loop (lines 31-73).  The flag
`reload_signal` starts as `false` (line 20). -/
def start (env : Env) : State :=
  let s : State :=
    { engineLibrary := none, init := none, update := none, shutdown := none,
      last_write_time := 0, reload_signal := false, nextHandle := 0,
      trace := [.stat], status := .running }
  match env.time with
  | none => { s with status := .aborted }
  | some t =>
    let s := { s with last_write_time := t }
    match load_library env.load s with
    | (none, s) => { s with status := .aborted }
    | (some false, s) => { s with status := .returned }
    | (some true, s) =>
      match s.init with
      | none => { s with status := .aborted }
      | some p =>
        let s := s.emit (.init p env.initRet)
        if env.initRet ≠ 0 then
          { closeLibrary s with status := .returned }
        else s

/-- Lines 99-103: `if (update && update(allocator, state) != 0) break;`. -/
def callUpdate (r : Int) (s : State) : Ctl × State :=
  match s.update with
  | none => (.continue, s)
  | some p =>
    let s := s.emit (.update p r)
    if r ≠ 0 then (.break, s) else (.continue, s)

/-- The body of `if (reload_signal) { ... }` (lines 80-104): one tick. -/
def tick (w : Wake) (s : State) : Ctl × State :=
  let s := { s with reload_signal := false }
  let s := s.emit .stat
  match w.time with
  | none => (.throw, s)
  | some t =>
    if t ≠ s.last_write_time then
      let s := { s with last_write_time := t }
      let s := closeLibrary s
      match load_library w.load s with
      | (none, s) => (.throw, s)
      | (some false, s) => (.break, s)
      | (some true, s) => callUpdate w.upd s
    else callUpdate w.upd s

/-- One pass through the loop body once `cv.wait` has returned, with what
follows it: the next pass, the clean-up after a `break`, or the exception. -/
def loopBody (w : Wake) (s : State) : State :=
  match tick w s with
  | (.continue, s) => s
  | (.break, s) => cleanup s
  | (.throw, s) => { s with status := .aborted }

/-- What happens to the process next: the operating system delivers a signal,
or the thread of `watch_and_reload` is given the chance to run one pass of its
loop in the environment `w`. -/
inductive Input where
  | signal (sig : Int)
  | iter (w : Wake)
  deriving DecidableEq, Repr

/-- One step of a run in which every signal arrives while the thread sleeps
in `cv.wait` (line 78), where `cv_m` is released: `.signal` is such a delivery,
and `.iter` is a pass of the loop body that no delivery interrupts.
`cv.wait(lk, [] { return reload_signal; })` lets the pass begin only when the
flag is set.  A delivery inside a pass is `signalInPass`.  Once the function
has returned or the process was killed or hangs, nothing happens. -/
def step (SIGUSR1 : Int) (s : State) (i : Input) : State :=
  match s.status with
  | .running =>
    match i with
    | .signal sig => handle_signal SIGUSR1 sig false s
    | .iter w => if s.reload_signal then loopBody w s else s
  | _ => s

/-- The process from the state `s` under the schedule `ins`. -/
def runFrom (SIGUSR1 : Int) (s : State) (ins : List Input) : State :=
  ins.foldl (step SIGUSR1) s

/-- The run of `watch_and_reload` under the schedule `ins`. -/
def watch_and_reload (env : Env) (ins : List Input) : State :=
  runFrom env.SIGUSR1 (start env) ins

/-- The wakes that the loop observes (those whose tick is executed) when the
process goes through the schedule `ins` from the state `s`. -/
def processed (SIGUSR1 : Int) (s : State) : List Input → List Wake
  | [] => []
  | .signal sig :: ins => processed SIGUSR1 (step SIGUSR1 s (.signal sig)) ins
  | .iter w :: ins =>
    (if s.status = .running ∧ s.reload_signal = true then [w] else [])
      ++ processed SIGUSR1 (step SIGUSR1 s (.iter w)) ins

/-- The lifecycle operations of the specification. -/
inductive Call where
  | load | unload | init | update | shutdown
  deriving DecidableEq, Repr

/-- The lifecycle operation an event stands for, if any. -/
def Event.call : Event → Option Call
  | .stat => none
  | .load => some .load
  | .opened _ => none
  | .dlclose _ => some .unload
  | .init _ _ => some .init
  | .update _ _ => some .update
  | .shutdown _ => some .shutdown

/-- The sequence of lifecycle operations of a trace. -/
def calls (tr : List Event) : List Call :=
  tr.filterMap Event.call

/-- A schedule in which every wake is announced by one `SIGUSR1`. -/
def announce (SIGUSR1 : Int) (ws : List Wake) : List Input :=
  ws.flatMap fun w => [.signal SIGUSR1, .iter w]

/-- A pass of the loop body that has just cleared the flag (line 81) when the
signal `sig` is delivered.  The thread holds `cv_m` from line 77 to the end of
the pass (line 104), so the handler finds the mutex held; the same happens at
every later point of the pass. -/
def signalInPass (SIGUSR1 sig : Int) (s : State) : State :=
  handle_signal SIGUSR1 sig true { s with reload_signal := false }

/-- Whether the tick of the wake `w`, with `last` the last observed timestamp,
reaches the call of `update` at line 100: the timestamp is read, and either it
is unchanged or the module loads completely. -/
def reachesUpdate (last : Int) (w : Wake) : Bool :=
  match w.time with
  | none => false
  | some t => if t ≠ last then decide (w.load = .opened true true true) else true

/-! ## Predicates used in the statements and their proofs -/

/-- The slot holds a complete binding to `h`, and `h` is the one open handle:
it is younger than every handle that has been closed. -/
def Bound (s : State) (h : Handle) : Prop :=
  s.engineLibrary = some h ∧ s.init = some h ∧ s.update = some h ∧
    s.shutdown = some h ∧ liveHandles s.trace = [h] ∧ h < s.nextHandle ∧
    ∀ k, Event.dlclose k ∈ s.trace → k < h

/-- While the loop runs, the slot holds a complete binding to the open handle. -/
def Inv (s : State) : Prop :=
  s.status = .running → ∃ h, Bound s h

/-- The initial load fails: `dlopen` returns null, or an entry point is missing. -/
def LoadOutcome.fails : LoadOutcome → Bool
  | .copyThrows => false
  | .openFails => true
  | .opened i u d => !(i && u && d)

/-- After every event of `es`, starting with the open handles `l`, at most one
handle is open. -/
def okFrom (l : List Handle) : List Event → Prop
  | [] => True
  | e :: es => (liveStep l e).length ≤ 1 ∧ okFrom (liveStep l e) es

/-- At every point of the trace at most one handle is open. -/
def LiveInv (tr : List Event) : Prop :=
  ∀ p q, tr = p ++ q → (liveHandles p).length ≤ 1

/-- Whether the event is a call of `update`. -/
def Event.isUpdate : Event → Bool
  | .update _ _ => true
  | _ => false

/-! ## Theorems -/


/-! ## The binding while the loop runs -/

theorem liveHandles_append (a b : List Event) :
    liveHandles (a ++ b) = b.foldl liveStep (liveHandles a) := by
  simp [liveHandles, List.foldl_append]

theorem start_inv (env : Env) : Inv (start env) := by
  intro hrun
  obtain ⟨sg, tm, ld, ir⟩ := env
  cases tm with
  | none => simp [start] at hrun
  | some t =>
    cases ld with
    | copyThrows => simp [start, load_library, State.emit] at hrun
    | openFails => simp [start, load_library, State.emit] at hrun
    | opened i u d =>
      cases i <;> cases u <;> cases d <;>
        simp [start, load_library, State.emit, closeLibrary] at hrun ⊢
      by_cases h0 : ir = 0
      · subst h0
        refine ⟨0, ?_⟩
        simp [Bound, liveHandles, liveStep]
      · simp [h0] at hrun


theorem loopBody_inv (w : Wake) (s : State) (hs : Inv s) (hrun : s.status = .running) :
    Inv (loopBody w s) := by
  obtain ⟨h, he, hi, hu, hd, hl, hn, hc⟩ := hs hrun
  obtain ⟨tm, ld, r⟩ := w
  intro hrun2
  cases tm with
  | none => simp [loopBody, tick, State.emit] at hrun2
  | some t =>
    by_cases ht : t = s.last_write_time
    · by_cases hr : r = 0
      · refine ⟨h, ?_⟩
        simp [loopBody, tick, State.emit, callUpdate, hu, ht, hr, Bound, he, hi, hd, hn,
          liveHandles_append, hl, liveStep]
        exact hc
      · simp [loopBody, tick, State.emit, callUpdate, hu, ht, hr, cleanup, closeLibrary, hd, he,
        liveHandles_append, hl, liveStep]
          at hrun2
    · cases ld with
      | copyThrows =>
        simp [loopBody, tick, State.emit, load_library, closeLibrary, he, ht] at hrun2
      | openFails =>
        simp [loopBody, tick, State.emit, load_library, closeLibrary, he, ht, cleanup, hd,
          liveHandles_append, hl, liveStep]
          at hrun2
      | opened i u d =>
        by_cases hr : r = 0
        · cases i <;> cases u <;> cases d <;>
            simp [loopBody, tick, State.emit, load_library, closeLibrary, he, ht, cleanup, hd,
              callUpdate, hr, hi, hu, liveHandles_append, hl, liveStep] at hrun2 ⊢
          refine ⟨s.nextHandle, ?_⟩
          simp [Bound, liveHandles_append, hl, liveStep]
          intro k hk
          rcases hk with hk | hk
          · exact Nat.lt_trans (hc k hk) hn
          · exact hk ▸ hn
        · cases i <;> cases u <;> cases d <;>
            simp [loopBody, tick, State.emit, load_library, closeLibrary, he, ht, cleanup, hd,
              callUpdate, hr, hi, hu, liveHandles_append, hl, liveStep] at hrun2 ⊢

theorem handle_signal_inv (g sig : Int) (s : State) (hs : Inv s) :
    Inv (handle_signal g sig false s) := by
  unfold handle_signal
  split
  · exact hs
  · exact hs

theorem step_inv (g : Int) (s : State) (i : Input) (hs : Inv s) : Inv (step g s i) := by
  unfold step
  split
  · next hrun =>
    cases i with
    | signal sig => exact handle_signal_inv g sig s hs
    | iter w =>
      simp only
      split
      · exact loopBody_inv w s hs hrun
      · exact hs
  · exact hs

theorem runFrom_inv (g : Int) (ins : List Input) :
    ∀ s : State, Inv s → Inv (runFrom g s ins) := by
  induction ins with
  | nil => intro s hs; exact hs
  | cons i ins ih => intro s hs; exact ih _ (step_inv g s i hs)

theorem watch_and_reload_inv (env : Env) (ins : List Input) :
    Inv (watch_and_reload env ins) :=
  runFrom_inv _ ins _ (start_inv env)


/-! ## After the function has left the loop -/

theorem step_of_not_running (g : Int) (s : State) (i : Input) (hs : s.status ≠ .running) :
    step g s i = s := by
  unfold step
  split
  · next hrun => exact absurd hrun hs
  · rfl

theorem runFrom_of_not_running (g : Int) (ins : List Input) (s : State)
    (hs : s.status ≠ .running) : runFrom g s ins = s := by
  induction ins with
  | nil => rfl
  | cons i ins ih =>
    show runFrom g (step g s i) ins = s
    rw [step_of_not_running g s i hs]
    exact ih

theorem processed_of_not_running (g : Int) (ins : List Input) (s : State)
    (hs : s.status ≠ .running) : processed g s ins = [] := by
  induction ins with
  | nil => rfl
  | cons i ins ih =>
    cases i with
    | signal sig =>
      show processed g (step g s (.signal sig)) ins = []
      rw [step_of_not_running g s _ hs]
      exact ih
    | iter w =>
      show (if s.status = .running ∧ s.reload_signal = true then [w] else [])
        ++ processed g (step g s (.iter w)) ins = []
      rw [step_of_not_running g s _ hs, ih]
      simp [hs]

theorem runFrom_append (g : Int) (s : State) (a b : List Input) :
    runFrom g s (a ++ b) = runFrom g (runFrom g s a) b := by
  simp [runFrom, List.foldl_append]

/-- C4.  When the initial `load_library()` fails (the module does not open, or
one of the three entry points is not found), the run is over after the load:
under every schedule the state is the one in which the function returned, the
trace is `stat, load` (with the `dlopen`/`dlclose` pair of the half-opened
module when it did open), no call to `init`, `update` or `shutdown` is in it,
no handle is left open and the loop observes no wake. -/
theorem initial_load_failure (env : Env) (t : Int) (ins : List Input)
    (ht : env.time = some t) (hl : env.load.fails = true) :
    watch_and_reload env ins = start env ∧
    (watch_and_reload env ins).status = .returned ∧
    ((watch_and_reload env ins).trace = [.stat, .load] ∨
      (watch_and_reload env ins).trace = [.stat, .load, .opened 0, .dlclose 0]) ∧
    (∀ e ∈ (watch_and_reload env ins).trace,
      e.call ≠ some .init ∧ e.call ≠ some .update ∧ e.call ≠ some .shutdown) ∧
    liveHandles (watch_and_reload env ins).trace = [] ∧
    processed env.SIGUSR1 (start env) ins = [] := by
  obtain ⟨sg, tm, ld, ir⟩ := env
  simp only at ht hl
  subst ht
  have key : (start ⟨sg, some t, ld, ir⟩).status = .returned ∧
      ((start ⟨sg, some t, ld, ir⟩).trace = [.stat, .load] ∨
        (start ⟨sg, some t, ld, ir⟩).trace = [.stat, .load, .opened 0, .dlclose 0]) := by
    cases ld with
    | copyThrows => simp [LoadOutcome.fails] at hl
    | openFails => simp [start, load_library, State.emit]
    | opened i u d =>
      cases i <;> cases u <;> cases d <;>
        simp [LoadOutcome.fails] at hl <;>
        simp [start, load_library, State.emit]
  have hnr : (start ⟨sg, some t, ld, ir⟩).status ≠ .running := by
    rw [key.1]; decide
  have heq : watch_and_reload ⟨sg, some t, ld, ir⟩ ins = start ⟨sg, some t, ld, ir⟩ :=
    runFrom_of_not_running _ ins _ hnr
  rw [heq]
  refine ⟨rfl, key.1, key.2, ?_, ?_, processed_of_not_running _ ins _ hnr⟩
  · rcases key.2 with h | h <;> rw [h] <;> simp [Event.call]
  · rcases key.2 with h | h <;> rw [h] <;> simp [liveHandles, liveStep]

theorem initial_load_failure_witness :
    (watch_and_reload ⟨10, some 5, .opened true false true, 0⟩
        [.signal 10, .iter ⟨some 6, .opened true true true, 0⟩]).trace
      = [.stat, .load, .opened 0, .dlclose 0] := by
  have h := initial_load_failure ⟨10, some 5, .opened true false true, 0⟩ 5
    [.signal 10, .iter ⟨some 6, .opened true true true, 0⟩] rfl rfl
  rcases h.2.2.1 with h1 | h1
  · rw [h.1] at h1
    simp [start, load_library, State.emit] at h1
  · exact h1

/-- C5.  When the initial load succeeds and `init` returns a nonzero value `r`,
the run is over after the release of the module: under every schedule the
function has returned, the trace is `stat, load, opened 0, init 0 r,
dlclose 0` (so `update` and `shutdown` are never called and the handle is
released exactly once), no handle is left open and the loop observes no wake. -/
theorem init_failure (env : Env) (t : Int) (ins : List Input)
    (ht : env.time = some t) (hl : env.load = .opened true true true)
    (hi : env.initRet ≠ 0) :
    (watch_and_reload env ins).status = .returned ∧
    (watch_and_reload env ins).trace
      = [.stat, .load, .opened 0, .init 0 env.initRet, .dlclose 0] ∧
    calls (watch_and_reload env ins).trace = [.load, .init, .unload] ∧
    liveHandles (watch_and_reload env ins).trace = [] ∧
    processed env.SIGUSR1 (start env) ins = [] := by
  obtain ⟨sg, tm, ld, ir⟩ := env
  simp only at ht hl hi
  subst ht hl
  have hst : (start ⟨sg, some t, .opened true true true, ir⟩).status = .returned := by
    simp [start, load_library, State.emit, closeLibrary, hi]
  have htr : (start ⟨sg, some t, .opened true true true, ir⟩).trace
      = [.stat, .load, .opened 0, .init 0 ir, .dlclose 0] := by
    simp [start, load_library, State.emit, closeLibrary, hi]
  have hnr : (start ⟨sg, some t, .opened true true true, ir⟩).status ≠ .running := by
    rw [hst]; decide
  have heq : watch_and_reload ⟨sg, some t, .opened true true true, ir⟩ ins
      = start ⟨sg, some t, .opened true true true, ir⟩ :=
    runFrom_of_not_running _ ins _ hnr
  rw [heq, htr]
  refine ⟨hst, rfl, ?_, ?_, processed_of_not_running _ ins _ hnr⟩
  · simp [calls, Event.call]
  · simp [liveHandles, liveStep]

theorem init_failure_witness :
    (watch_and_reload ⟨10, some 5, .opened true true true, 7⟩
        [.signal 10, .iter ⟨some 5, .opened true true true, 0⟩]).trace
      = [.stat, .load, .opened 0, .init 0 7, .dlclose 0] :=
  (init_failure ⟨10, some 5, .opened true true true, 7⟩ 5
    [.signal 10, .iter ⟨some 5, .opened true true true, 0⟩] rfl rfl (by decide)).2.1


/-! ## Wakes that find the file unchanged -/

theorem runFrom_unchanged (g : Int) (t : Int) (h : Handle) (ins : List Input) :
    ∀ s : State, s.status = .running → s.update = some h → s.last_write_time = t →
      (∀ w ∈ processed g s ins, w.time = some t ∧ w.upd = 0) →
      (runFrom g s ins).trace
          = s.trace ++ (List.replicate (processed g s ins).length
              [Event.stat, Event.update h 0]).flatten ∧
        (runFrom g s ins).status = .running := by
  induction ins with
  | nil => intro s hrun _ _ _; simp [runFrom, processed, hrun]
  | cons i ins ih =>
    intro s hrun hu hlw hw
    cases i with
    | signal sig =>
      have h1 : (step g s (.signal sig)).status = .running := by
        simp only [step, hrun, handle_signal]; split <;> simp [hrun]
      have h2 : (step g s (.signal sig)).update = some h := by
        simp only [step, hrun, handle_signal]; split <;> simp [hu]
      have h3 : (step g s (.signal sig)).last_write_time = t := by
        simp only [step, hrun, handle_signal]; split <;> simp [hlw]
      have h4 : (step g s (.signal sig)).trace = s.trace := by
        simp only [step, hrun, handle_signal]; split <;> simp
      have := ih (step g s (.signal sig)) h1 h2 h3 hw
      simpa [runFrom, processed, h4] using this
    | iter w =>
      by_cases hf : s.reload_signal = true
      · have hw0 : w.time = some t ∧ w.upd = 0 :=
          hw w (by simp [processed, hrun, hf])
        obtain ⟨tm, ld, r⟩ := w
        simp only at hw0
        obtain ⟨rfl, rfl⟩ := hw0
        have hst : step g s (.iter ⟨some t, ld, 0⟩)
            = { s with reload_signal := false,
                       trace := s.trace ++ [.stat, .update h 0] } := by
          simp [step, hrun, hf, loopBody, tick, State.emit, hlw, callUpdate, hu]
        have hw2 : ∀ w ∈ processed g (step g s (.iter ⟨some t, ld, 0⟩)) ins,
            w.time = some t ∧ w.upd = 0 := by
          intro w hmem
          exact hw w (by simp [processed, hrun, hf, hmem])
        have := ih (step g s (.iter ⟨some t, ld, 0⟩)) (by rw [hst]; exact hrun)
          (by rw [hst]; exact hu) (by rw [hst]; exact hlw) hw2
        rw [hst] at this
        simp only [runFrom, List.foldl_cons, processed, hrun, hf, and_self, if_true,
          List.length_append, List.length_singleton, hst] at this ⊢
        rw [Nat.add_comm, List.replicate_succ]
        simpa [runFrom] using this
      · have hst : step g s (.iter w) = s := by
          simp [step, hrun, hf]
        have hw2 : ∀ w' ∈ processed g s ins, w'.time = some t ∧ w'.upd = 0 := by
          intro w' hmem
          exact hw w' (by simp [processed, hrun, hf, hst, hmem])
        have := ih s hrun hu hlw hw2
        simpa [runFrom, processed, hrun, hf, hst] using this


theorem calls_append (a b : List Event) : calls (a ++ b) = calls a ++ calls b := by
  simp [calls, List.filterMap_append]

theorem calls_unchanged (h : Handle) (n : Nat) :
    calls (List.replicate n [Event.stat, Event.update h 0]).flatten
      = List.replicate n Call.update := by
  induction n with
  | zero => simp [calls]
  | succ n ih =>
    rw [List.replicate_succ, List.flatten_cons, calls_append, ih, List.replicate_succ]
    simp [calls, Event.call]

/-- C1.  When the initial load and `init` succeed and every wake the loop
observes under the schedule finds the timestamp of start-up and has `update`
return 0, then after `n` observed wakes the trace is `stat, load, opened 0,
init 0` followed by `n` times `stat, update 0`: as lifecycle operations, `load,
init` and then `update` `n` times.  The function is still in its loop. -/
theorem unchanged_wakes_trace (env : Env) (t : Int) (ins : List Input)
    (ht : env.time = some t) (hl : env.load = .opened true true true)
    (hi : env.initRet = 0)
    (hw : ∀ w ∈ processed env.SIGUSR1 (start env) ins, w.time = some t ∧ w.upd = 0) :
    (watch_and_reload env ins).trace
        = [.stat, .load, .opened 0, .init 0 0]
          ++ (List.replicate (processed env.SIGUSR1 (start env) ins).length
                [Event.stat, Event.update 0 0]).flatten ∧
      calls (watch_and_reload env ins).trace
        = .load :: .init
          :: List.replicate (processed env.SIGUSR1 (start env) ins).length .update ∧
      (watch_and_reload env ins).status = .running := by
  obtain ⟨sg, tm, ld, ir⟩ := env
  simp only at ht hl hi hw ⊢
  subst ht hl hi
  have hst : start ⟨sg, some t, .opened true true true, 0⟩
      = { engineLibrary := some 0, init := some 0, update := some 0, shutdown := some 0,
          last_write_time := t, reload_signal := false, nextHandle := 1,
          trace := [.stat, .load, .opened 0, .init 0 0], status := .running } := by
    simp [start, load_library, State.emit]
  have key := runFrom_unchanged sg t 0 ins (start ⟨sg, some t, .opened true true true, 0⟩)
    (by rw [hst]) (by rw [hst]) (by rw [hst]) hw
  have htr : (start ⟨sg, some t, .opened true true true, 0⟩).trace
      = [.stat, .load, .opened 0, .init 0 0] := by rw [hst]
  rw [htr] at key
  refine ⟨key.1, ?_, key.2⟩
  show calls (runFrom sg (start ⟨sg, some t, .opened true true true, 0⟩) ins).trace = _
  rw [key.1, calls_append, calls_unchanged]
  simp [calls, Event.call]

theorem unchanged_wakes_trace_witness :
    calls (watch_and_reload ⟨10, some 5, .opened true true true, 0⟩
        (announce 10 [⟨some 5, .openFails, 0⟩, ⟨some 5, .openFails, 0⟩,
          ⟨some 5, .openFails, 0⟩])).trace
      = [.load, .init, .update, .update, .update] :=
  (unchanged_wakes_trace ⟨10, some 5, .opened true true true, 0⟩ 5
    (announce 10 [⟨some 5, .openFails, 0⟩, ⟨some 5, .openFails, 0⟩,
      ⟨some 5, .openFails, 0⟩]) rfl rfl rfl (by decide)).2.1


/-! ## A wake that finds the file changed -/

theorem liveInv_nil : LiveInv [] := by
  intro p q h
  have hp : p = [] := (List.append_eq_nil.1 h.symm).1
  subst hp
  simp [liveHandles]

theorem liveInv_concat (tr : List Event) (e : Event) (h : LiveInv tr)
    (he : (liveStep (liveHandles tr) e).length ≤ 1) : LiveInv (tr ++ [e]) := by
  intro p q hpq
  rcases List.eq_nil_or_concat q with rfl | ⟨q', x, rfl⟩
  · simp at hpq
    subst hpq
    simpa [liveHandles_append] using he
  · rw [List.concat_eq_append, ← List.append_assoc] at hpq
    have := List.append_inj' hpq (by simp)
    exact h p q' this.1

theorem liveInv_append (es : List Event) :
    ∀ tr : List Event, LiveInv tr → okFrom (liveHandles tr) es → LiveInv (tr ++ es) := by
  induction es with
  | nil => intro tr h _; simpa using h
  | cons e es ih =>
    intro tr h hok
    have h1 : LiveInv (tr ++ [e]) := liveInv_concat tr e h hok.1
    have h2 : okFrom (liveHandles (tr ++ [e])) es := by
      simpa [liveHandles_append] using hok.2
    have := ih (tr ++ [e]) h1 h2
    simpa using this

theorem start_liveInv (env : Env) : LiveInv (start env).trace := by
  have hex : ∃ evs : List Event, (start env).trace = [] ++ evs ∧ okFrom [] evs := by
    obtain ⟨sg, tm, ld, ir⟩ := env
    cases tm with
    | none => simp [start, okFrom, liveStep]
    | some t =>
      cases ld with
      | copyThrows => simp [start, load_library, State.emit, okFrom, liveStep]
      | openFails => simp [start, load_library, State.emit, okFrom, liveStep]
      | opened i u d =>
        by_cases h0 : ir = 0 <;> cases i <;> cases u <;> cases d <;>
          simp [start, load_library, State.emit, closeLibrary, h0, okFrom, liveStep]
  obtain ⟨evs, h1, h2⟩ := hex
  rw [h1]
  exact liveInv_append evs [] liveInv_nil (by simpa [liveHandles] using h2)

theorem loopBody_liveInv (w : Wake) (s : State) (hs : Inv s) (hrun : s.status = .running)
    (hlive : LiveInv s.trace) : LiveInv (loopBody w s).trace := by
  obtain ⟨h, he, hi, hu, hd, hl, hn, hc⟩ := hs hrun
  have hex : ∃ evs : List Event, (loopBody w s).trace = s.trace ++ evs ∧ okFrom [h] evs := by
    obtain ⟨tm, ld, r⟩ := w
    cases tm with
    | none => simp [loopBody, tick, State.emit, okFrom, liveStep]
    | some t =>
      by_cases ht : t = s.last_write_time
      · by_cases hr : r = 0 <;>
          simp [loopBody, tick, State.emit, callUpdate, hu, ht, hr, cleanup, closeLibrary, hd,
            he, okFrom, liveStep, liveHandles_append, hl, liveStep]
      · cases ld with
        | copyThrows =>
          simp [loopBody, tick, State.emit, load_library, closeLibrary, he, ht, okFrom,
            liveStep]
        | openFails =>
          simp [loopBody, tick, State.emit, load_library, closeLibrary, he, ht, cleanup, hd,
            okFrom, liveStep, liveHandles_append, hl, liveStep]
        | opened i u d =>
          by_cases hr : r = 0 <;> cases i <;> cases u <;> cases d <;>
            simp [loopBody, tick, State.emit, load_library, closeLibrary, he, ht, cleanup,
              callUpdate, hr, okFrom, liveStep, liveHandles_append, hl, liveStep]
  obtain ⟨evs, h1, h2⟩ := hex
  rw [h1]
  exact liveInv_append evs s.trace hlive (by rw [hl]; exact h2)

theorem step_liveInv (g : Int) (s : State) (i : Input) (hs : Inv s)
    (hlive : LiveInv s.trace) : LiveInv (step g s i).trace := by
  by_cases hrun : s.status = .running
  · cases i with
    | signal sig =>
      have htr : (step g s (.signal sig)).trace = s.trace := by
        simp only [step, hrun, handle_signal]; split <;> rfl
      rw [htr]; exact hlive
    | iter w =>
      by_cases hflag : s.reload_signal = true
      · have : step g s (.iter w) = loopBody w s := by simp [step, hrun, hflag]
        rw [this]
        exact loopBody_liveInv w s hs hrun hlive
      · have : step g s (.iter w) = s := by simp [step, hrun, hflag]
        rw [this]
        exact hlive
  · rw [step_of_not_running g s i hrun]
    exact hlive

theorem runFrom_liveInv (g : Int) (ins : List Input) :
    ∀ s : State, Inv s → LiveInv s.trace → LiveInv (runFrom g s ins).trace := by
  induction ins with
  | nil => intro s _ hl; exact hl
  | cons i ins ih =>
    intro s hs hl
    exact ih _ (step_inv g s i hs) (step_liveInv g s i hs hl)


theorem live_after_open (tr : List Event) (hlive : LiveInv tr) (p' : List Event) (k : Handle)
    (mid : List Event) :
    ∀ q : List Event, tr = (p' ++ Event.opened k :: mid) ++ q →
      (∀ j, Event.dlclose j ∉ mid) → liveHandles (p' ++ Event.opened k :: mid) = [k] := by
  induction mid using List.reverseRecOn with
  | nil =>
    intro q hq _
    have h1 := hlive (p' ++ [Event.opened k]) q hq
    have h2 : liveHandles (p' ++ [Event.opened k]) = liveHandles p' ++ [k] := by
      simp [liveHandles_append, liveStep]
    rw [h2] at h1 ⊢
    have h3 : liveHandles p' = [] := by
      cases hp : liveHandles p' with
      | nil => rfl
      | cons a l => rw [hp] at h1; simp at h1
    rw [h3]; rfl
  | append_singleton mid e ih =>
    intro q hq hmid
    have hq2 : tr = (p' ++ Event.opened k :: mid) ++ (e :: q) := by
      rw [hq]; simp
    have h1 := ih (e :: q) hq2 (fun j hj => hmid j (by simp [hj]))
    have h2 : liveHandles (p' ++ Event.opened k :: (mid ++ [e])) = liveStep [k] e := by
      have : p' ++ Event.opened k :: (mid ++ [e]) = (p' ++ Event.opened k :: mid) ++ [e] := by
        simp
      rw [this, liveHandles_append, h1]; rfl
    have h3 := hlive (p' ++ Event.opened k :: (mid ++ [e])) q hq
    rw [h2] at h3 ⊢
    cases e with
    | opened k2 => simp [liveStep] at h3
    | dlclose j => exact absurd (by simp) (hmid j)
    | stat => rfl
    | load => rfl
    | init a b => rfl
    | update a b => rfl
    | shutdown a => rfl

/-- C9.  At every point `p` of the trace of every run, at most one module
handle has been opened and not yet released; and from the `dlopen` that
returned `k` up to the next `dlclose`, the open handles are exactly `k`. -/
theorem at_most_one_live_handle (env : Env) (ins : List Input) (p q : List Event)
    (hpq : (watch_and_reload env ins).trace = p ++ q) :
    (liveHandles p).length ≤ 1 ∧
    ∀ (p' : List Event) (k : Handle) (mid : List Event),
      p = p' ++ Event.opened k :: mid → (∀ j, Event.dlclose j ∉ mid) →
      liveHandles p = [k] := by
  have hlive : LiveInv (watch_and_reload env ins).trace :=
    runFrom_liveInv _ ins _ (start_inv env) (start_liveInv env)
  refine ⟨hlive p q hpq, ?_⟩
  intro p' k mid hp hmid
  subst hp
  exact live_after_open _ hlive p' k mid q hpq hmid

theorem at_most_one_live_handle_witness :
    (liveHandles [.stat, .load, .opened 0, .init 0 0, .stat, .dlclose 0, .load,
      .opened 1]).length ≤ 1 :=
  (at_most_one_live_handle ⟨10, some 5, .opened true true true, 0⟩
    (announce 10 [⟨some 6, .opened true true false, 0⟩])
    [.stat, .load, .opened 0, .init 0 0, .stat, .dlclose 0, .load, .opened 1]
    [.dlclose 1, .dlclose 1] (by decide)).1


/-! ## Coalescing of signals -/

theorem handle_signal_trigger (g : Int) (s : State) :
    handle_signal g g false s = { s with reload_signal := true } := by
  simp [handle_signal]

theorem runFrom_signals (g : Int) (n : Nat) (s : State) (hrun : s.status = .running) :
    runFrom g s (List.replicate (n + 1) (.signal g)) = { s with reload_signal := true } := by
  induction n with
  | zero => simp [runFrom, step, hrun, handle_signal]
  | succ n ih =>
    rw [List.replicate_succ', runFrom_append, ih]
    simp [runFrom, step, hrun, handle_signal]

theorem processed_signals (g : Int) (n : Nat) (rest : List Input) :
    ∀ s : State, processed g s (List.replicate n (.signal g) ++ rest)
      = processed g (runFrom g s (List.replicate n (.signal g))) rest := by
  induction n with
  | zero => intro s; rfl
  | succ n ih =>
    intro s
    rw [List.replicate_succ]
    show processed g (step g s (.signal g)) (List.replicate n (.signal g) ++ rest) = _
    rw [ih]
    rfl

theorem idle_iters (g : Int) (ws : List Wake) (s : State) (hf : s.reload_signal = false) :
    runFrom g s (ws.map .iter) = s ∧ processed g s (ws.map .iter) = [] := by
  induction ws with
  | nil => exact ⟨rfl, rfl⟩
  | cons w ws ih =>
    have hst : step g s (.iter w) = s := by
      unfold step
      split <;> simp [hf]
    constructor
    · show runFrom g (step g s (.iter w)) (ws.map .iter) = s
      rw [hst]; exact ih.1
    · show (if s.status = .running ∧ s.reload_signal = true then [w] else [])
        ++ processed g (step g s (.iter w)) (ws.map .iter) = []
      rw [hst, ih.2]
      simp [hf]

theorem loopBody_shape (w : Wake) (s : State) (hs : Inv s) (hrun : s.status = .running) :
    ∃ evs : List Event, (loopBody w s).trace = s.trace ++ evs ∧
      evs.count .stat = 1 ∧
      evs.countP Event.isUpdate = (if reachesUpdate s.last_write_time w then 1 else 0) ∧
      (loopBody w s).reload_signal = false ∧
      ((loopBody w s).status = .running → reachesUpdate s.last_write_time w = true) := by
  obtain ⟨h, he, hi, hu, hd, hl, hn, hc⟩ := hs hrun
  obtain ⟨tm, ld, r⟩ := w
  cases tm with
  | none => simp [loopBody, tick, State.emit, Event.isUpdate, reachesUpdate]
  | some t =>
    by_cases ht : t = s.last_write_time
    · by_cases hr : r = 0 <;>
        simp [loopBody, tick, State.emit, callUpdate, hu, ht, hr, cleanup, closeLibrary, hd,
          he, Event.isUpdate, List.count_cons, List.countP_cons, reachesUpdate,
          liveHandles_append, hl, liveStep]
    · cases ld with
      | copyThrows =>
        simp [loopBody, tick, State.emit, load_library, closeLibrary, he, ht, Event.isUpdate,
          List.count_cons, List.countP_cons, reachesUpdate]
      | openFails =>
        simp [loopBody, tick, State.emit, load_library, closeLibrary, he, ht, cleanup, hd,
          Event.isUpdate, List.count_cons, List.countP_cons, reachesUpdate,
          liveHandles_append, hl, liveStep]
      | opened i u d =>
        by_cases hr : r = 0 <;> cases i <;> cases u <;> cases d <;>
          simp [loopBody, tick, State.emit, load_library, closeLibrary, he, ht, cleanup,
            callUpdate, hr, Event.isUpdate, List.count_cons, List.countP_cons, reachesUpdate,
            liveHandles_append, hl, liveStep]

/-- C8, as amended.  Let `s` be a state of a run in which the loop is running,
and let the signals arrive while the thread sleeps in `cv.wait`.  `N ≥ 1`
deliveries of `SIGUSR1` leave the process in the same state as one delivery,
with the flag set, and `handle_signal` with any other signal number changes
nothing, whether `cv_m` is held or not.  However often the loop is then given
the chance to run, it observes exactly one wake: the first pass executes one
tick and clears the flag, and the later passes do nothing.  The tick makes
exactly one timestamp check, and exactly one call of `update` if it reaches
line 100 (the timestamp is read, and the file is unchanged or the module loads
completely) and none otherwise; when the loop is still running after the tick,
line 100 was reached. -/
theorem wake_coalescing (env : Env) (ins : List Input) (s : State) (N : Nat) (w : Wake)
    (ws : List Wake) (hreach : s = watch_and_reload env ins) (hrun : s.status = .running)
    (hN : 1 ≤ N) :
    runFrom env.SIGUSR1 s (List.replicate N (.signal env.SIGUSR1))
        = runFrom env.SIGUSR1 s [.signal env.SIGUSR1] ∧
      (runFrom env.SIGUSR1 s (List.replicate N (.signal env.SIGUSR1))).reload_signal = true ∧
      (∀ sig held, sig ≠ env.SIGUSR1 → handle_signal env.SIGUSR1 sig held s = s) ∧
      processed env.SIGUSR1 s
          (List.replicate N (.signal env.SIGUSR1) ++ .iter w :: ws.map .iter) = [w] ∧
      runFrom env.SIGUSR1 s (List.replicate N (.signal env.SIGUSR1) ++ .iter w :: ws.map .iter)
        = runFrom env.SIGUSR1 s (List.replicate N (.signal env.SIGUSR1) ++ [.iter w]) ∧
      (runFrom env.SIGUSR1 s
          (List.replicate N (.signal env.SIGUSR1) ++ [.iter w])).reload_signal = false ∧
      ∃ evs : List Event,
        (runFrom env.SIGUSR1 s (List.replicate N (.signal env.SIGUSR1) ++ [.iter w])).trace
            = s.trace ++ evs ∧
          evs.count .stat = 1 ∧
          evs.countP Event.isUpdate = (if reachesUpdate s.last_write_time w then 1 else 0) ∧
          ((runFrom env.SIGUSR1 s
              (List.replicate N (.signal env.SIGUSR1) ++ [.iter w])).status = .running →
            reachesUpdate s.last_write_time w = true ∧ evs.countP Event.isUpdate = 1) := by
  obtain ⟨n, rfl⟩ : ∃ n, N = n + 1 := ⟨N - 1, by omega⟩
  generalize env.SIGUSR1 = g at *
  have hinv : Inv s := hreach ▸ watch_and_reload_inv env ins
  have hsig := runFrom_signals g n s hrun
  have hinv1 : Inv { s with reload_signal := true } := by
    have := handle_signal_inv g g s hinv
    rwa [handle_signal_trigger] at this
  have hrun1 : ({ s with reload_signal := true } : State).status = .running := hrun
  have hstep : runFrom g { s with reload_signal := true } [.iter w]
      = loopBody w { s with reload_signal := true } := by
    simp [runFrom, step, hrun]
  obtain ⟨evs, h1, h2, h3, h4, h5⟩ := loopBody_shape w _ hinv1 hrun1
  have hidle : runFrom g (loopBody w { s with reload_signal := true }) (ws.map .iter)
        = loopBody w { s with reload_signal := true } ∧
      processed g (loopBody w { s with reload_signal := true }) (ws.map .iter) = [] :=
    idle_iters g ws _ h4
  refine ⟨?_, ?_, ?_, ?_, ?_, ?_, evs, ?_, h2, h3, ?_⟩
  · rw [hsig]; simp [runFrom, step, hrun, handle_signal]
  · rw [hsig]
  · intro sig held hne; simp [handle_signal, hne]
  · rw [processed_signals, hsig]
    show (if ({ s with reload_signal := true } : State).status = .running ∧
        ({ s with reload_signal := true } : State).reload_signal = true then [w] else [])
      ++ processed g (step g { s with reload_signal := true } (.iter w)) (ws.map .iter) = [w]
    have : step g { s with reload_signal := true } (.iter w)
        = loopBody w { s with reload_signal := true } := by simp [step, hrun]
    rw [this, hidle.2]
    simp [hrun]
  · rw [runFrom_append, runFrom_append, hsig, hstep]
    show runFrom g (step g { s with reload_signal := true } (.iter w)) (ws.map .iter) = _
    have : step g { s with reload_signal := true } (.iter w)
        = loopBody w { s with reload_signal := true } := by simp [step, hrun]
    rw [this, hidle.1]
  · rw [runFrom_append, hsig, hstep]
    exact h4
  · rw [runFrom_append, hsig, hstep, h1]
  · rw [runFrom_append, hsig, hstep]
    intro hr
    have h6 := h5 hr
    refine ⟨h6, ?_⟩
    rw [h3]
    simp [show reachesUpdate s.last_write_time w = true from h6]

theorem wake_coalescing_witness :
    processed 10 (watch_and_reload ⟨10, some 5, .opened true true true, 0⟩ [])
      (List.replicate 3 (.signal 10)
        ++ .iter ⟨some 5, .openFails, 0⟩ :: [⟨some 5, .openFails, 0⟩].map .iter)
      = [⟨some 5, .openFails, 0⟩] :=
  (wake_coalescing ⟨10, some 5, .opened true true true, 0⟩ [] _ 3 ⟨some 5, .openFails, 0⟩
    [⟨some 5, .openFails, 0⟩] rfl rfl (by decide)).2.2.2.1

/-- C8 as stated fails at two inputs, after a successful start with timestamp 5.
First, three deliveries of `SIGUSR1` are followed by a pass whose wake finds
the file changed and a module that does not open: the loop observes this one
wake, and the tick makes its timestamp check and no call of `update`.  Second,
after one delivery the pass begins, clears the flag, and `SIGUSR1` is delivered
inside the pass: the handler blocks on `cv_m`, the process hangs, and whatever
deliveries and passes are scheduled afterwards, no wake is observed and no call
is made. -/
theorem wake_coalescing_counterexample :
    (processed 10 (watch_and_reload ⟨10, some 5, .opened true true true, 0⟩ [])
        (List.replicate 3 (.signal 10) ++ [.iter ⟨some 6, .openFails, 0⟩])
        = [⟨some 6, .openFails, 0⟩] ∧
      (runFrom 10 (watch_and_reload ⟨10, some 5, .opened true true true, 0⟩ [])
          (List.replicate 3 (.signal 10) ++ [.iter ⟨some 6, .openFails, 0⟩])).trace
        = [.stat, .load, .opened 0, .init 0 0] ++ [.stat, .dlclose 0, .load, .shutdown 0] ∧
      List.countP Event.isUpdate [.stat, .dlclose 0, .load, .shutdown 0] = 0) ∧
    ((signalInPass 10 10
          (watch_and_reload ⟨10, some 5, .opened true true true, 0⟩ [.signal 10])).status
        = .hung ∧
      processed 10
          (signalInPass 10 10
            (watch_and_reload ⟨10, some 5, .opened true true true, 0⟩ [.signal 10]))
          [.signal 10, .iter ⟨some 5, .openFails, 0⟩, .signal 10,
            .iter ⟨some 5, .openFails, 0⟩] = [] ∧
      (runFrom 10
          (signalInPass 10 10
            (watch_and_reload ⟨10, some 5, .opened true true true, 0⟩ [.signal 10]))
          [.signal 10, .iter ⟨some 5, .openFails, 0⟩, .signal 10,
            .iter ⟨some 5, .openFails, 0⟩]).trace
        = [.stat, .load, .opened 0, .init 0 0]) := by
  refine ⟨⟨?_, ?_, ?_⟩, ?_, ?_, ?_⟩ <;> decide

/-! ## What a load leaves in the slot -/

theorem load_library_true (o : LoadOutcome) (s : State) (s' : State)
    (h : load_library o s = (some true, s')) :
    s'.engineLibrary = some s.nextHandle ∧ s'.init = some s.nextHandle ∧
      s'.update = some s.nextHandle ∧ s'.shutdown = some s.nextHandle ∧
      s'.trace = s.trace ++ [.load, .opened s.nextHandle] := by
  cases o with
  | copyThrows => simp [load_library] at h
  | openFails => simp [load_library] at h
  | opened i u d =>
    cases i <;> cases u <;> cases d <;> simp [load_library, State.emit] at h
    subst h
    simp

theorem load_library_false (o : LoadOutcome) (s : State) (s' : State)
    (h : load_library o s = (some false, s')) :
    s'.trace = s.trace ++ [.load] ∨
      s'.trace = s.trace ++ [.load, .opened s.nextHandle, .dlclose s.nextHandle] := by
  cases o with
  | copyThrows => simp [load_library] at h
  | openFails =>
    simp [load_library, State.emit] at h
    subst h
    simp
  | opened i u d =>
    cases i <;> cases u <;> cases d <;> simp [load_library, State.emit] at h <;>
      subst h <;> simp

/-- C6, at the failing input: a load whose `dlopen` succeeds and whose
`dlsym("server_shutdown")` fails returns `false` after closing the handle, and
leaves in the slot the closed handle and the `init` and `update` pointers
resolved from it; a reload whose `dlopen` fails leaves a null handle next to
the three entry points of the module released before. -/
theorem load_failure_leaves_slot :
    (load_library (.opened true true false)
        { engineLibrary := none, init := none, update := none, shutdown := none,
          last_write_time := 5, reload_signal := false, nextHandle := 0,
          trace := [.stat], status := .running })
      = (some false,
        { engineLibrary := some 0, init := some 0, update := some 0, shutdown := none,
          last_write_time := 5, reload_signal := false, nextHandle := 1,
          trace := [.stat, .load, .opened 0, .dlclose 0], status := .running }) ∧
    (load_library .openFails
        { engineLibrary := some 0, init := some 0, update := some 0, shutdown := some 0,
          last_write_time := 6, reload_signal := false, nextHandle := 1,
          trace := [.stat, .load, .opened 0, .init 0 0, .stat, .dlclose 0],
          status := .running })
      = (some false,
        { engineLibrary := none, init := some 0, update := some 0, shutdown := some 0,
          last_write_time := 6, reload_signal := false, nextHandle := 1,
          trace := [.stat, .load, .opened 0, .init 0 0, .stat, .dlclose 0, .load],
          status := .running }) := by
  constructor <;> rfl

/-- C7, at the failing input: after a successful start, a wake finds the file
changed and the new module opens without a `server_shutdown` symbol.
`load_library` closes the new handle 1 (line 55) and returns `false`; the
clean-up makes no call through the null `shutdown` pointer and closes
`engineLibrary`, still handle 1, a second time (line 112). -/
theorem reload_unresolved_closes_twice :
    (watch_and_reload ⟨10, some 5, .opened true true true, 0⟩
        [.signal 10, .iter ⟨some 6, .opened true true false, 0⟩]).trace
      = [.stat, .load, .opened 0, .init 0 0, .stat, .dlclose 0, .load, .opened 1,
          .dlclose 1, .dlclose 1] ∧
    (watch_and_reload ⟨10, some 5, .opened true true true, 0⟩
        [.signal 10, .iter ⟨some 6, .opened true true false, 0⟩]).trace.count (.dlclose 1)
      = 2 ∧
    (watch_and_reload ⟨10, some 5, .opened true true true, 0⟩
        [.signal 10, .iter ⟨some 6, .opened true true false, 0⟩]).status = .returned := by
  refine ⟨?_, ?_, ?_⟩ <;> decide

/-- C10, at the failing input: after a successful start, a wake finds the file
changed and `dlopen` of the new module fails.  The old handle 0 has been closed
(line 90), no handle is open, and the clean-up calls `shutdown` through the
pointer resolved from handle 0 (line 109). -/
theorem reload_failure_calls_released_shutdown :
    (watch_and_reload ⟨10, some 5, .opened true true true, 0⟩
        [.signal 10, .iter ⟨some 6, .openFails, 0⟩]).trace
      = [.stat, .load, .opened 0, .init 0 0, .stat, .dlclose 0, .load, .shutdown 0] ∧
    liveHandles [.stat, .load, .opened 0, .init 0 0, .stat, .dlclose 0, .load] = [] := by
  constructor <;> decide

end HotReload
